import Mathlib

/-!
# sdl-cli: the command layer (`cmd/fmt.go`, `cmd/validate.go`, `cmd/compile.go`, `cmd/root.go`)

A shallow embedding of the four command files.  The package `internal/sdl`
(file discovery, the formatter, the validator) is not part of the command
layer; its three entry points are taken as parameters (`Env`), and every call
the commands make to them is recorded in a trace.

Output streams are modelled as the list of chunks written, one chunk per
`Fprint` / `Fprintln` call.  Go `int` values that are only counted up from 0
over a slice (`changed`, `errors`, `warnings`, `len(files)`) are `Nat`; flag
values and exit codes, which may be negative, are `Int`.
-/

namespace SdlCli

/-! ## Error values -/

/-- Go `error` values as `Execute` can observe them: their `Error()` text and
whether their dynamic type has an `ExitCode() int` method.
* `errorString msg`: an error without an `ExitCode` method (what `fmt.Errorf` returns);
* `exitError code err`: the struct `exitError` of `cmd/root.go`;
* `foreign msg code`: an error of a type declared elsewhere that has an
  `ExitCode() int` method. -/
inductive GoError where
  | errorString (msg : String)
  | exitError (code : Int) (err : GoError)
  | foreign (msg : String) (code : Int)
  deriving Repr, DecidableEq

/-- The method `Error()`: for `exitError` the text of the wrapped error
(`return e.err.Error()`), for the other error values their own text. -/
def GoError.Error : GoError → String
  | .errorString msg => msg
  | .exitError _ err => err.Error
  | .foreign msg _ => msg

/-- The type assertion `err.(interface{ ExitCode() int })` followed by the call
`ec.ExitCode()`: `none` when the assertion fails; for `exitError` the method
returns `e.code`. -/
def GoError.ExitCode : GoError → Option Int
  | .errorString _ => none
  | .exitError code _ => some code
  | .foreign _ code => some code

/-- The call `fmt.Errorf`, applied to an already rendered message. -/
def Errorf (msg : String) : GoError := GoError.errorString msg

/-- The verb `%d` applied to a non-negative Go `int`. -/
def fmtD (n : Nat) : String := toString n

/-! ## Data of package `sdl` used by the commands -/

/-- The struct `sdl.FormatOptions`, with the five fields set by the struct literal in `cmd/fmt.go`. -/
structure FormatOptions where
  Write : Bool
  Check : Bool
  Diff : Bool
  ActionStyle : String
  ActionLineLimit : Int
  deriving Repr, DecidableEq

/-- Modelled from the spec: the declaration of `sdl.FormatResult` is not among
the sources; these are the three fields `cmd/fmt.go` reads (the per-file
record `path, changed` of the formatter orchestrator, plus the rendered diff). -/
structure FormatResult where
  Path : String
  Changed : Bool
  Diff : String
  deriving Repr, DecidableEq

/-- Modelled from the spec: the position of a diagnostic (file path, 1-based
line, 1-based column). -/
structure Position where
  File : String
  Line : Nat
  Column : Nat
  deriving Repr, DecidableEq

/-- Modelled from the spec: the declaration of `sdl.Problem` is not among the
sources; a diagnostic carries severity, rule, message and position.
`cmd/validate.go` reads `Severity` (compared with the string `"warning"`) and
calls the method `Error()`, which is a parameter of the model (`Env.ProblemError`). -/
structure Problem where
  Severity : String
  Rule : String
  Message : String
  Pos : Position
  deriving Repr, DecidableEq

/-- The entry points of package `sdl` the commands call. -/
structure Env where
  FindSDLFiles : String → Except GoError (List String)
  FormatFiles : List String → FormatOptions → Except GoError (List FormatResult)
  ValidatePaths : List String → Except GoError (List Problem)
  ProblemError : Problem → String

/-- One call into package `sdl`, with its arguments. -/
inductive Call where
  | FindSDLFiles (path : String)
  | FormatFiles (files : List String) (opts : FormatOptions)
  | ValidatePaths (files : List String)
  deriving Repr, DecidableEq

/-- What one run of a command's `RunE` did: the calls into `sdl` in order, the
chunks written to `cmd.OutOrStdout()` and `cmd.ErrOrStderr()`, and the
returned error (`none` for `nil`). -/
structure Run where
  calls : List Call
  stdout : List String
  stderr : List String
  err : Option GoError
  deriving Repr, DecidableEq

/-! ## `cmd/fmt.go` -/

/-- The package-level flag variables of `cmd/fmt.go`. -/
structure FmtFlags where
  fmtCheck : Bool
  fmtDiff : Bool
  fmtWrite : Bool
  fmtActionStyle : String
  fmtLineLength : Int
  deriving Repr, DecidableEq

/-- The defaults registered in `init` (`cmd/fmt.go`, lines 81-85). -/
def defaultFmtFlags : FmtFlags :=
  { fmtCheck := false, fmtDiff := false, fmtWrite := true,
    fmtActionStyle := "auto", fmtLineLength := 100 }

/-- Lines 24-27 of each `RunE`: `path := "."; if len(args) == 1 { path = args[0] }`. -/
def argPath (args : List String) : String :=
  match args with
  | [a] => a
  | _ => "."

/-- Lines 37-39 of `cmd/fmt.go`: an empty `--actions` value becomes `"auto"`
(the assignment is to the package-level variable). -/
def normalizeFlags (flags : FmtFlags) : FmtFlags :=
  if flags.fmtActionStyle = "" then { flags with fmtActionStyle := "auto" } else flags

/-- The condition of line 40 of `cmd/fmt.go`, negated: the style is accepted. -/
def validActionStyle (s : String) : Bool :=
  !(s != "single" && s != "multi" && s != "auto")

/-- Lines 44-53 of `cmd/fmt.go`: the struct literal and `if fmtDiff { opts.Write = false }`. -/
def buildOptions (flags : FmtFlags) : FormatOptions :=
  let opts : FormatOptions :=
    { Write := flags.fmtWrite, Check := flags.fmtCheck, Diff := flags.fmtDiff,
      ActionStyle := flags.fmtActionStyle, ActionLineLimit := flags.fmtLineLength }
  if flags.fmtDiff then { opts with Write := false } else opts

/-- One iteration of the loop of lines 61-71 of `cmd/fmt.go`, on the pair
(`changed`, chunks written to stdout so far). -/
def fmtStep (flags : FmtFlags) (st : Nat × List String) (res : FormatResult) : Nat × List String :=
  if !res.Changed then st
  else
    let changed := st.1 + 1
    if flags.fmtDiff && res.Diff != "" then (changed, st.2 ++ [res.Diff])
    else if flags.fmtCheck then (changed, st.2 ++ [res.Path ++ "\n"])
    else (changed, st.2)

/-- The loop of lines 60-71 of `cmd/fmt.go`. -/
def fmtLoop (flags : FmtFlags) (results : List FormatResult) : Nat × List String :=
  results.foldl (fmtStep flags) (0, [])

/-- The function `RunE` of `fmtCmd`: the flag variables after the run, and the run. -/
def fmtRunE (env : Env) (flags : FmtFlags) (args : List String) : FmtFlags × Run :=
  let path := argPath args
  match env.FindSDLFiles path with
  | .error err =>
    (flags, { calls := [.FindSDLFiles path], stdout := [], stderr := [], err := some err })
  | .ok files =>
    if files.length = 0 then
      (flags, { calls := [.FindSDLFiles path], stdout := [], stderr := [],
                err := some (Errorf ("no .sdl files found under " ++ path)) })
    else
      let flags := normalizeFlags flags
      if validActionStyle flags.fmtActionStyle = false then
        (flags, { calls := [.FindSDLFiles path], stdout := [], stderr := [],
                  err := some (Errorf ("invalid --actions value: " ++ flags.fmtActionStyle
                                        ++ " (expected single|multi|auto)")) })
      else
        let opts := buildOptions flags
        let calls := [Call.FindSDLFiles path, Call.FormatFiles files opts]
        match env.FormatFiles files opts with
        | .error err => (flags, { calls := calls, stdout := [], stderr := [], err := some err })
        | .ok results =>
          let st := fmtLoop flags results
          if flags.fmtCheck && decide (st.1 > 0) then
            (flags, { calls := calls, stdout := st.2, stderr := [],
                      err := some (.exitError 3
                        (Errorf (fmtD st.1 ++ " file(s) would be reformatted"))) })
          else
            (flags, { calls := calls, stdout := st.2, stderr := [], err := none })

/-! ## `cmd/validate.go` -/

/-- The loop counters and the error stream of lines 34-42 of `cmd/validate.go`. -/
structure ValidateState where
  errors : Nat
  warnings : Nat
  stderr : List String
  deriving Repr, DecidableEq

/-- One iteration of the loop of lines 36-43 of `cmd/validate.go`. -/
def validateStep (env : Env) (st : ValidateState) (p : Problem) : ValidateState :=
  let st := { st with stderr := st.stderr ++ [env.ProblemError p ++ "\n"] }
  if p.Severity = "warning" then { st with warnings := st.warnings + 1 }
  else { st with errors := st.errors + 1 }

/-- The loop of lines 34-43 of `cmd/validate.go`. -/
def validateLoop (env : Env) (problems : List Problem) : ValidateState :=
  problems.foldl (validateStep env) { errors := 0, warnings := 0, stderr := [] }

/-- The function `RunE` of `validateCmd`. -/
def validateRunE (env : Env) (args : List String) : Run :=
  let path := argPath args
  match env.FindSDLFiles path with
  | .error err => { calls := [.FindSDLFiles path], stdout := [], stderr := [], err := some err }
  | .ok files =>
    if files.length = 0 then
      { calls := [.FindSDLFiles path], stdout := [], stderr := [],
        err := some (Errorf ("no .sdl files found under " ++ path)) }
    else
      let calls := [Call.FindSDLFiles path, Call.ValidatePaths files]
      match env.ValidatePaths files with
      | .error err => { calls := calls, stdout := [], stderr := [], err := some err }
      | .ok problems =>
        let st := validateLoop env problems
        if st.errors > 0 then
          { calls := calls, stdout := [], stderr := st.stderr,
            err := some (.exitError 1
              (Errorf ("validation failed (" ++ fmtD st.errors ++ " errors, "
                        ++ fmtD st.warnings ++ " warnings)"))) }
        else
          let msg := fmtD files.length ++ " file(s) valid"
          let msg := if st.warnings > 0 then msg ++ " (" ++ fmtD st.warnings ++ " warning(s))" else msg
          { calls := calls, stdout := [msg ++ "\n"], stderr := st.stderr, err := none }

/-! ## `cmd/compile.go` -/

/-- The function `RunE` of `compileCmd`. -/
def compileRunE (args : List String) : Run :=
  let path := argPath args
  let _ := path
  { calls := [], stdout := ["compile is not implemented yet" ++ "\n"], stderr := [], err := none }

/-! ## `cmd/root.go` -/

/-- What `Execute` does after `rootCmd.Execute()` returned: the chunks written
to `os.Stderr` and the argument of `os.Exit`, `none` when `os.Exit` is not
called. -/
structure Outcome where
  stderr : List String
  exit : Option Int
  deriving Repr, DecidableEq

/-- The function `Execute` of `cmd/root.go`, on the value `rootCmd.Execute()` returned. -/
def Execute (result : Option GoError) : Outcome :=
  match result with
  | none => { stderr := [], exit := none }
  | some err =>
    let code : Int := 1
    let code := match err.ExitCode with
      | some c => c
      | none => code
    { stderr := [err.Error ++ "\n"], exit := some code }

/-- The exit code of the process: the argument of `os.Exit` when it is
called, 0 when `main` returns. -/
def Outcome.exitCode (o : Outcome) : Int := o.exit.getD 0

/-- The argument validator `cobra.MaximumNArgs(n)`, run by cobra before `RunE`. -/
def MaximumNArgs (n : Nat) (args : List String) : Option GoError :=
  if args.length > n then
    some (Errorf ("accepts at most " ++ fmtD n ++ " arg(s), received " ++ fmtD args.length))
  else none

/-- A run that fails before `RunE` is entered. -/
def Run.rejected (err : GoError) : Run :=
  { calls := [], stdout := [], stderr := [], err := some err }

/-- The command `fmtCmd`: `Args: cobra.MaximumNArgs(1)`, then `RunE`. -/
def fmtCmd (env : Env) (flags : FmtFlags) (args : List String) : FmtFlags × Run :=
  match MaximumNArgs 1 args with
  | some err => (flags, Run.rejected err)
  | none => fmtRunE env flags args

/-- The command `validateCmd`: `Args: cobra.MaximumNArgs(1)`, then `RunE`. -/
def validateCmd (env : Env) (args : List String) : Run :=
  match MaximumNArgs 1 args with
  | some err => Run.rejected err
  | none => validateRunE env args

/-- The command `compileCmd`: `Args: cobra.MaximumNArgs(1)`, then `RunE`. -/
def compileCmd (args : List String) : Run :=
  match MaximumNArgs 1 args with
  | some err => Run.rejected err
  | none => compileRunE args

/-! ## The claims' words, as definitions -/

/-- What one result contributes to the output of `fmt`, in the words of the
description of the command: nothing for an unchanged result; for a changed
one, its `Diff` when diff is set and the `Diff` is non-empty, its `Path` line
when check is set (and, with diff set, the `Diff` is empty), nothing otherwise. -/
def specContribution (check diff : Bool) (res : FormatResult) : List String :=
  if res.Changed = false then []
  else if diff = true then
    (if res.Diff ≠ "" then [res.Diff] else if check = true then [res.Path ++ "\n"] else [])
  else if check = true then [res.Path ++ "\n"]
  else []

/-- The errors of the three `sdl` entry points have no `ExitCode` method. -/
def Env.plainErrors (env : Env) : Prop :=
  (∀ path e, env.FindSDLFiles path = .error e → e.ExitCode = none) ∧
  (∀ files opts e, env.FormatFiles files opts = .error e → e.ExitCode = none) ∧
  (∀ files e, env.ValidatePaths files = .error e → e.ExitCode = none)

/-! ## Sample data -/

/-- An environment in which discovery finds `a.sdl`, the formatter returns
`results` and the validator returns `problems`. -/
def sampleEnv (results : List FormatResult) (problems : List Problem) : Env :=
  { FindSDLFiles := fun _ => .ok ["a.sdl"]
    FormatFiles := fun _ _ => .ok results
    ValidatePaths := fun _ => .ok problems
    ProblemError := fun p => p.Pos.File ++ ": " ++ p.Severity ++ ": " ++ p.Message }

/-- An environment in which discovery fails with an ordinary error. -/
def failingEnv : Env :=
  { FindSDLFiles := fun _ => .error (.errorString "permission denied")
    FormatFiles := fun _ _ => .ok []
    ValidatePaths := fun _ => .ok []
    ProblemError := fun p => p.Message }

/-- Three formatter results: changed with a diff, unchanged, changed without a diff. -/
def sampleResults : List FormatResult :=
  [ { Path := "a.sdl", Changed := true, Diff := "--- a.sdl\n+++ a.sdl\n" },
    { Path := "b.sdl", Changed := false, Diff := "" },
    { Path := "c.sdl", Changed := true, Diff := "" } ]

/-- A problem of the given severity at line 1, column 1 of `a.sdl`. -/
def sampleProblem (severity : String) : Problem :=
  { Severity := severity, Rule := "rule", Message := "message",
    Pos := { File := "a.sdl", Line := 1, Column := 1 } }

/-! ## Auxiliary lemmas -/

theorem validActionStyle_iff (s : String) :
    validActionStyle s = true ↔ s = "single" ∨ s = "multi" ∨ s = "auto" := by
  unfold validActionStyle
  by_cases h1 : s = "single" <;> by_cases h2 : s = "multi" <;> by_cases h3 : s = "auto" <;>
    simp [h1, h2, h3]

theorem normalizeFlags_style (flags : FmtFlags) :
    (normalizeFlags flags).fmtActionStyle =
      if flags.fmtActionStyle = "" then "auto" else flags.fmtActionStyle := by
  unfold normalizeFlags
  split <;> simp_all

theorem normalizeFlags_fields (flags : FmtFlags) :
    (normalizeFlags flags).fmtCheck = flags.fmtCheck ∧
    (normalizeFlags flags).fmtDiff = flags.fmtDiff ∧
    (normalizeFlags flags).fmtWrite = flags.fmtWrite ∧
    (normalizeFlags flags).fmtLineLength = flags.fmtLineLength := by
  unfold normalizeFlags
  split <;> simp

theorem fmtStep_eq (flags : FmtFlags) (st : Nat × List String) (res : FormatResult) :
    fmtStep flags st res =
      (st.1 + (if res.Changed = true then 1 else 0),
       st.2 ++ specContribution flags.fmtCheck flags.fmtDiff res) := by
  unfold fmtStep specContribution
  cases hc : res.Changed <;> cases hd : flags.fmtDiff <;> cases hk : flags.fmtCheck <;>
    by_cases he : res.Diff = "" <;> simp [he]

theorem fmtLoop_foldl (flags : FmtFlags) (results : List FormatResult) (st : Nat × List String) :
    results.foldl (fmtStep flags) st =
      (st.1 + results.countP (fun res => res.Changed),
       st.2 ++ results.flatMap (specContribution flags.fmtCheck flags.fmtDiff)) := by
  induction results generalizing st with
  | nil => simp
  | cons res rest ih =>
    rw [List.foldl_cons, ih, fmtStep_eq, List.countP_cons, List.flatMap_cons]
    simp [Nat.add_assoc, Nat.add_comm]

theorem fmtLoop_eq (flags : FmtFlags) (results : List FormatResult) :
    fmtLoop flags results =
      (results.countP (fun res => res.Changed),
       results.flatMap (specContribution flags.fmtCheck flags.fmtDiff)) := by
  unfold fmtLoop
  rw [fmtLoop_foldl]
  simp

/-- The run of `fmt` once discovery found files, the style is accepted and the
formatter returned results. -/
theorem fmtRunE_ok (env : Env) (flags : FmtFlags) (args files : List String)
    (results : List FormatResult)
    (hfind : env.FindSDLFiles (argPath args) = .ok files) (hne : files ≠ [])
    (hstyle : validActionStyle (normalizeFlags flags).fmtActionStyle = true)
    (hfmt : env.FormatFiles files (buildOptions (normalizeFlags flags)) = .ok results) :
    fmtRunE env flags args =
      (normalizeFlags flags,
       { calls := [Call.FindSDLFiles (argPath args),
                   Call.FormatFiles files (buildOptions (normalizeFlags flags))],
         stdout := results.flatMap (specContribution flags.fmtCheck flags.fmtDiff),
         stderr := [],
         err := if flags.fmtCheck = true ∧ 0 < results.countP (fun res => res.Changed) then
                  some (.exitError 3 (Errorf (fmtD (results.countP (fun res => res.Changed))
                    ++ " file(s) would be reformatted")))
                else none }) := by
  have hlen : files.length ≠ 0 := by
    intro h
    exact hne (List.length_eq_zero.mp h)
  obtain ⟨hk, hd, _, _⟩ := normalizeFlags_fields flags
  unfold fmtRunE
  simp only [hfind, hlen, hstyle, hfmt, fmtLoop_eq, hk, hd]
  cases hc : flags.fmtCheck <;>
    by_cases hp : 0 < results.countP (fun res => res.Changed) <;>
    simp [hp, -List.countP_eq_zero]

/-- Every call `fmt` makes into `sdl`: discovery of the path, and, after the
style has been accepted, the formatter on the discovered, non-empty file list
with the options built from the normalised flags. -/
theorem fmtRunE_calls (env : Env) (flags : FmtFlags) (args : List String) (c : Call)
    (hc : c ∈ (fmtRunE env flags args).2.calls) :
    c = Call.FindSDLFiles (argPath args) ∨
    (∃ files, c = Call.FormatFiles files (buildOptions (normalizeFlags flags)) ∧
      env.FindSDLFiles (argPath args) = .ok files ∧ files ≠ [] ∧
      validActionStyle (normalizeFlags flags).fmtActionStyle = true) := by
  unfold fmtRunE at hc
  cases hfind : env.FindSDLFiles (argPath args) with
  | error e =>
    simp only [hfind, List.mem_singleton] at hc
    exact Or.inl hc
  | ok files =>
    simp only [hfind] at hc
    by_cases hlen : files.length = 0
    · simp only [hlen, if_true, List.mem_singleton] at hc
      exact Or.inl hc
    · simp only [hlen, if_false] at hc
      have hne : files ≠ [] := fun h => hlen (by simp [h])
      cases hst : validActionStyle (normalizeFlags flags).fmtActionStyle with
      | false =>
        simp only [hst, if_true, List.mem_singleton] at hc
        exact Or.inl hc
      | true =>
        simp only [hst, Bool.true_eq_false, if_false] at hc
        have hcalls : c ∈ [Call.FindSDLFiles (argPath args),
            Call.FormatFiles files (buildOptions (normalizeFlags flags))] := by
          cases hf : env.FormatFiles files (buildOptions (normalizeFlags flags)) with
          | error e => simpa only [hf] using hc
          | ok results =>
            simp only [hf] at hc
            split at hc <;> exact hc
        simp only [List.mem_cons, List.mem_singleton, List.not_mem_nil, or_false] at hcalls
        rcases hcalls with h | h
        · exact Or.inl h
        · exact Or.inr ⟨files, h, rfl, hne, rfl⟩

theorem validActionStyle_normalize_of_valid (flags : FmtFlags)
    (h : flags.fmtActionStyle = "" ∨ flags.fmtActionStyle = "single" ∨
      flags.fmtActionStyle = "multi" ∨ flags.fmtActionStyle = "auto") :
    validActionStyle (normalizeFlags flags).fmtActionStyle = true := by
  rw [normalizeFlags_style, validActionStyle_iff]
  rcases h with h | h | h | h <;> simp [h]

theorem validActionStyle_normalize_of_invalid (flags : FmtFlags)
    (h : flags.fmtActionStyle ≠ "" ∧ flags.fmtActionStyle ≠ "single" ∧
      flags.fmtActionStyle ≠ "multi" ∧ flags.fmtActionStyle ≠ "auto") :
    validActionStyle (normalizeFlags flags).fmtActionStyle = false := by
  cases hv : validActionStyle (normalizeFlags flags).fmtActionStyle with
  | false => rfl
  | true =>
    rw [normalizeFlags_style, validActionStyle_iff] at hv
    obtain ⟨h0, h1, h2, h3⟩ := h
    simp [h0, h1, h2, h3] at hv

theorem validateLoop_foldl (env : Env) (problems : List Problem) (st : ValidateState) :
    problems.foldl (validateStep env) st =
      { errors := st.errors + problems.countP (fun p => decide (p.Severity ≠ "warning")),
        warnings := st.warnings + problems.countP (fun p => decide (p.Severity = "warning")),
        stderr := st.stderr ++ problems.map (fun p => env.ProblemError p ++ "\n") } := by
  induction problems generalizing st with
  | nil => simp
  | cons p rest ih =>
    rw [List.foldl_cons, ih]
    unfold validateStep
    by_cases hw : p.Severity = "warning" <;> simp [hw, List.countP_cons, Nat.add_assoc, Nat.add_comm]

theorem validateLoop_eq (env : Env) (problems : List Problem) :
    validateLoop env problems =
      { errors := problems.countP (fun p => decide (p.Severity ≠ "warning")),
        warnings := problems.countP (fun p => decide (p.Severity = "warning")),
        stderr := problems.map (fun p => env.ProblemError p ++ "\n") } := by
  unfold validateLoop
  rw [validateLoop_foldl]
  simp

/-- The run of `validate` once discovery found files and the validator returned problems. -/
theorem validateRunE_ok (env : Env) (args files : List String) (problems : List Problem)
    (hfind : env.FindSDLFiles (argPath args) = .ok files) (hne : files ≠ [])
    (hval : env.ValidatePaths files = .ok problems) :
    (validateRunE env args).calls =
        [Call.FindSDLFiles (argPath args), Call.ValidatePaths files] ∧
    (validateRunE env args).stderr = (validateLoop env problems).stderr ∧
    (validateRunE env args).err =
      (if 0 < (validateLoop env problems).errors then
        some (.exitError 1 (Errorf ("validation failed ("
          ++ fmtD (validateLoop env problems).errors ++ " errors, "
          ++ fmtD (validateLoop env problems).warnings ++ " warnings)")))
       else none) := by
  have hlen : files.length ≠ 0 := by
    intro h
    exact hne (List.length_eq_zero.mp h)
  unfold validateRunE
  simp only [hfind, hlen, hval, if_false]
  by_cases hp : 0 < (validateLoop env problems).errors
  · have hp' : (validateLoop env problems).errors > 0 := hp
    simp only [hp, hp', if_true, and_self]
  · have hp' : ¬ (validateLoop env problems).errors > 0 := hp
    simp only [hp, hp', if_false, and_self]

/-! ## The `fmt` command -/

/-- C1: in a run of `fmt` where discovery returns a non-empty list, the action
style is valid and the formatter returns `results`, the command fails with exit
code 3 exactly when the check flag is set and some result has `Changed = true`;
the error then reads "n file(s) would be reformatted" with n the number of
changed results; in every other case the command returns no error and the
process exits with code 0. -/
theorem fmt_check_exit_code (env : Env) (flags : FmtFlags) (args files : List String)
    (results : List FormatResult)
    (hfind : env.FindSDLFiles (argPath args) = .ok files) (hne : files ≠ [])
    (hstyle : flags.fmtActionStyle = "" ∨ flags.fmtActionStyle = "single" ∨
      flags.fmtActionStyle = "multi" ∨ flags.fmtActionStyle = "auto")
    (hfmt : env.FormatFiles files (buildOptions (normalizeFlags flags)) = .ok results) :
    ((fmtRunE env flags args).2.err ≠ none ↔
      (flags.fmtCheck = true ∧ ∃ res ∈ results, res.Changed = true)) ∧
    ((Execute (fmtRunE env flags args).2.err).exitCode = 3 ↔
      (flags.fmtCheck = true ∧ ∃ res ∈ results, res.Changed = true)) ∧
    ((flags.fmtCheck = true ∧ ∃ res ∈ results, res.Changed = true) →
      (fmtRunE env flags args).2.err =
        some (.exitError 3 (.errorString
          (fmtD (results.filter (fun res => res.Changed)).length
            ++ " file(s) would be reformatted"))) ∧
      (Execute (fmtRunE env flags args).2.err).exit = some 3 ∧
      (Execute (fmtRunE env flags args).2.err).stderr =
        [fmtD (results.filter (fun res => res.Changed)).length
          ++ " file(s) would be reformatted" ++ "\n"]) ∧
    (¬ (flags.fmtCheck = true ∧ ∃ res ∈ results, res.Changed = true) →
      (fmtRunE env flags args).2.err = none ∧
      (Execute (fmtRunE env flags args).2.err).exit = none ∧
      (Execute (fmtRunE env flags args).2.err).exitCode = 0) := by
  have hv := validActionStyle_normalize_of_valid flags hstyle
  have hrun := fmtRunE_ok env flags args files results hfind hne hv hfmt
  have hpos : 0 < results.countP (fun res => res.Changed) ↔ ∃ res ∈ results, res.Changed = true :=
    List.countP_pos_iff
  have hcount : results.countP (fun res => res.Changed)
      = (results.filter (fun res => res.Changed)).length := List.countP_eq_length_filter _ _
  by_cases h : flags.fmtCheck = true ∧ ∃ res ∈ results, res.Changed = true
  · have h' : flags.fmtCheck = true ∧ 0 < results.countP (fun res => res.Changed) :=
      ⟨h.1, hpos.mpr h.2⟩
    have herr : (fmtRunE env flags args).2.err =
        some (.exitError 3 (.errorString
          (fmtD (results.filter (fun res => res.Changed)).length
            ++ " file(s) would be reformatted"))) := by
      rw [hrun]
      show (if _ then _ else _) = _
      rw [if_pos h', hcount]
      rfl
    rw [herr]
    refine ⟨?_, ?_, ?_, ?_⟩
    · exact ⟨fun _ => h, fun _ => by simp⟩
    · exact ⟨fun _ => h, fun _ => rfl⟩
    · intro _
      exact ⟨rfl, rfl, rfl⟩
    · intro hn
      exact absurd h hn
  · have h' : ¬ (flags.fmtCheck = true ∧ 0 < results.countP (fun res => res.Changed)) :=
      fun hh => h ⟨hh.1, hpos.mp hh.2⟩
    have herr : (fmtRunE env flags args).2.err = none := by
      rw [hrun]
      show (if _ then _ else _) = _
      rw [if_neg h']
    rw [herr]
    refine ⟨?_, ?_, ?_, ?_⟩
    · exact ⟨fun hh => absurd rfl hh, fun hh => absurd hh h⟩
    · refine ⟨fun hh => ?_, fun hh => absurd hh h⟩
      have h0 : (Execute none).exitCode = 0 := rfl
      rw [h0] at hh
      exact absurd hh (by decide)
    · intro hh
      exact absurd hh h
    · intro _
      exact ⟨rfl, rfl, rfl⟩

/-- Witness of C1: `--check` on the sample results (two of three changed)
fails with exit code 3 and the message "2 file(s) would be reformatted". -/
theorem fmt_check_exit_code_witness :
    (sampleEnv sampleResults []).FindSDLFiles (argPath []) = .ok ["a.sdl"] ∧
    (Execute (fmtRunE (sampleEnv sampleResults []) { defaultFmtFlags with fmtCheck := true }
      []).2.err).exit = some 3 ∧
    (Execute (fmtRunE (sampleEnv sampleResults []) { defaultFmtFlags with fmtCheck := true }
      []).2.err).stderr = ["2 file(s) would be reformatted\n"] :=
  ⟨rfl,
   ((fmt_check_exit_code (sampleEnv sampleResults []) { defaultFmtFlags with fmtCheck := true }
      [] ["a.sdl"] sampleResults rfl (by decide) (by decide) rfl).2.2.1
      ⟨rfl, ⟨_, List.mem_cons_self _ _, rfl⟩⟩).2⟩

/-- C3: an `--actions` value other than "", "single", "multi", "auto" makes
`fmt` return an error without ever invoking the formatter, whatever discovery
returns (the error being the invalid-value error when files were found); and
whenever the formatter is invoked, the `ActionStyle` it receives is "single",
"multi" or "auto", an empty flag value being passed as "auto". -/
theorem fmt_actions_fail_fast (env : Env) (flags : FmtFlags) (args : List String) :
    ((flags.fmtActionStyle ≠ "" ∧ flags.fmtActionStyle ≠ "single" ∧
        flags.fmtActionStyle ≠ "multi" ∧ flags.fmtActionStyle ≠ "auto") →
      (fmtRunE env flags args).2.err ≠ none ∧
      (∀ files opts, Call.FormatFiles files opts ∉ (fmtRunE env flags args).2.calls) ∧
      (∀ files, env.FindSDLFiles (argPath args) = .ok files → files ≠ [] →
        (fmtRunE env flags args).2.err =
          some (.errorString ("invalid --actions value: " ++ flags.fmtActionStyle
            ++ " (expected single|multi|auto)")))) ∧
    (∀ files opts, Call.FormatFiles files opts ∈ (fmtRunE env flags args).2.calls →
      (opts.ActionStyle = "single" ∨ opts.ActionStyle = "multi" ∨ opts.ActionStyle = "auto") ∧
      (flags.fmtActionStyle = "" → opts.ActionStyle = "auto")) := by
  constructor
  · intro hbad
    have hv := validActionStyle_normalize_of_invalid flags hbad
    have hnorm : normalizeFlags flags = flags := by
      unfold normalizeFlags
      simp [hbad.1]
    refine ⟨?_, ?_, ?_⟩
    · unfold fmtRunE
      cases hfind : env.FindSDLFiles (argPath args) with
      | error e => simp [hfind]
      | ok files =>
        by_cases hlen : files.length = 0
        · simp [hfind, hlen]
        · simp [hfind, hlen, hv]
    · intro files opts hmem
      rcases fmtRunE_calls env flags args _ hmem with h | ⟨files', _, _, _, hvalid⟩
      · cases h
      · rw [hv] at hvalid
        cases hvalid
    · intro files hfind hne
      have hlen : files.length ≠ 0 := fun h => hne (List.length_eq_zero.mp h)
      rw [hnorm] at hv
      unfold fmtRunE
      simp only [hfind, hlen, hv, if_false, if_true, hnorm, Errorf]
  · intro files opts hmem
    rcases fmtRunE_calls env flags args _ hmem with h | ⟨files', hc, _, _, hvalid⟩
    · cases h
    · have hopts : opts = buildOptions (normalizeFlags flags) := by
        injection hc
      have hstyle : opts.ActionStyle = (normalizeFlags flags).fmtActionStyle := by
        rw [hopts]
        unfold buildOptions
        split <;> rfl
      rw [hstyle]
      refine ⟨(validActionStyle_iff _).mp hvalid, ?_⟩
      intro hempty
      rw [normalizeFlags_style]
      simp [hempty]

/-- Witness of C3: `--actions=compact` fails before the formatter is called,
and `--actions=` reaches the formatter as "auto". -/
theorem fmt_actions_fail_fast_witness :
    (fmtRunE (sampleEnv sampleResults []) { defaultFmtFlags with fmtActionStyle := "compact" }
        []).2.err =
      some (.errorString "invalid --actions value: compact (expected single|multi|auto)") ∧
    (∀ files opts, Call.FormatFiles files opts ∉
      (fmtRunE (sampleEnv sampleResults []) { defaultFmtFlags with fmtActionStyle := "compact" }
        []).2.calls) ∧
    (Call.FormatFiles ["a.sdl"]
        { Write := true, Check := false, Diff := false, ActionStyle := "auto",
          ActionLineLimit := 100 } ∈
      (fmtRunE (sampleEnv sampleResults []) { defaultFmtFlags with fmtActionStyle := "" }
        []).2.calls) ∧
    (("auto" : String) = "single" ∨ ("auto" : String) = "multi" ∨ ("auto" : String) = "auto") :=
  ⟨((fmt_actions_fail_fast (sampleEnv sampleResults [])
      { defaultFmtFlags with fmtActionStyle := "compact" } []).1 (by decide)).2.2
      ["a.sdl"] rfl (by decide),
   ((fmt_actions_fail_fast (sampleEnv sampleResults [])
      { defaultFmtFlags with fmtActionStyle := "compact" } []).1 (by decide)).2.1,
   by decide,
   ((fmt_actions_fail_fast (sampleEnv sampleResults [])
      { defaultFmtFlags with fmtActionStyle := "" } []).2 ["a.sdl"]
      { Write := true, Check := false, Diff := false, ActionStyle := "auto",
        ActionLineLimit := 100 } (by decide)).1⟩

/-- C4: for every combination of the flags, the options of every call `fmt`
makes to the formatter have `Write = false` when the diff flag is true and
`Write` equal to the write flag when diff is false; `Check`, `Diff`,
`ActionStyle` (after an empty value became "auto") and `ActionLineLimit` are
the flag values unchanged. -/
theorem fmt_diff_implies_no_write (env : Env) (flags : FmtFlags) (args files : List String)
    (opts : FormatOptions)
    (hcall : Call.FormatFiles files opts ∈ (fmtRunE env flags args).2.calls) :
    (flags.fmtDiff = true → opts.Write = false) ∧
    (flags.fmtDiff = false → opts.Write = flags.fmtWrite) ∧
    opts.Check = flags.fmtCheck ∧
    opts.Diff = flags.fmtDiff ∧
    opts.ActionStyle = (if flags.fmtActionStyle = "" then "auto" else flags.fmtActionStyle) ∧
    opts.ActionLineLimit = flags.fmtLineLength := by
  rcases fmtRunE_calls env flags args _ hcall with h | ⟨files', hc, _, _, _⟩
  · cases h
  · have hopts : opts = buildOptions (normalizeFlags flags) := by
      injection hc
    obtain ⟨hk, hd, hw, hl⟩ := normalizeFlags_fields flags
    have hs := normalizeFlags_style flags
    rw [hopts]
    unfold buildOptions
    cases hdiff : flags.fmtDiff <;> simp [hk, hd, hw, hl, hs, hdiff]

/-- Witness of C4: `--diff` with the write flag left at `true` reaches the
formatter with `Write = false`. -/
theorem fmt_diff_implies_no_write_witness :
    Call.FormatFiles ["a.sdl"]
        { Write := false, Check := false, Diff := true, ActionStyle := "auto",
          ActionLineLimit := 100 } ∈
      (fmtRunE (sampleEnv sampleResults []) { defaultFmtFlags with fmtDiff := true } []).2.calls ∧
    ({ defaultFmtFlags with fmtDiff := true } : FmtFlags).fmtWrite = true ∧
    (({ defaultFmtFlags with fmtDiff := true } : FmtFlags).fmtDiff = true →
      ({ Write := false, Check := false, Diff := true, ActionStyle := "auto",
         ActionLineLimit := 100 } : FormatOptions).Write = false) :=
  ⟨by decide, rfl,
   (fmt_diff_implies_no_write (sampleEnv sampleResults []) { defaultFmtFlags with fmtDiff := true }
      [] ["a.sdl"]
      { Write := false, Check := false, Diff := true, ActionStyle := "auto",
        ActionLineLimit := 100 } (by decide)).1⟩

/-- C5, the code at `--check` with every other flag at its default: the
formatter is called with `Check = true` and `Write = true`. -/
theorem fmt_check_passes_write_true :
    (fmtRunE (sampleEnv sampleResults []) { defaultFmtFlags with fmtCheck := true } []).2.calls =
      [ Call.FindSDLFiles ".",
        Call.FormatFiles ["a.sdl"]
          { Write := true, Check := true, Diff := false, ActionStyle := "auto",
            ActionLineLimit := 100 } ] := by
  decide

/-- C6 as stated fails: with `--line-length=-1` the command is not rejected and
the formatter is called with `ActionLineLimit = -1`, which is negative. -/
theorem fmt_negative_line_length_reaches_formatter :
    (fmtRunE (sampleEnv [] []) { defaultFmtFlags with fmtLineLength := -1 } []).2.err = none ∧
    Call.FormatFiles ["a.sdl"]
        { Write := true, Check := false, Diff := false, ActionStyle := "auto",
          ActionLineLimit := -1 } ∈
      (fmtRunE (sampleEnv [] []) { defaultFmtFlags with fmtLineLength := -1 } []).2.calls ∧
    ¬ (0 ≤ ({ Write := true, Check := false, Diff := false, ActionStyle := "auto",
              ActionLineLimit := -1 } : FormatOptions).ActionLineLimit) := by
  decide

/-- The calls of `fmt` once discovery found files and the style is accepted:
the formatter is called, whatever it returns and whatever the other flags are. -/
theorem fmtRunE_calls_of_valid (env : Env) (flags : FmtFlags) (args files : List String)
    (hfind : env.FindSDLFiles (argPath args) = .ok files) (hne : files ≠ [])
    (hstyle : validActionStyle (normalizeFlags flags).fmtActionStyle = true) :
    (fmtRunE env flags args).2.calls =
      [Call.FindSDLFiles (argPath args),
       Call.FormatFiles files (buildOptions (normalizeFlags flags))] := by
  have hlen : files.length ≠ 0 := fun h => hne (List.length_eq_zero.mp h)
  unfold fmtRunE
  simp only [hfind, hlen, hstyle, Bool.true_eq_false, if_false]
  cases hf : env.FormatFiles files (buildOptions (normalizeFlags flags)) with
  | error e => simp only [hf]
  | ok results =>
    simp only [hf]
    split <;> rfl

/-- C6 amended: `fmt` performs no range check on `--line-length`.  Whenever
discovery found files and the action style is accepted, the formatter is
called, for every value of the flag, negative ones included, and the
`ActionLineLimit` it receives is the flag value unchanged; conversely the
`ActionLineLimit` of every call to the formatter is the flag value, so it is
non-negative whenever the flag value is non-negative and negative whenever
the flag value is negative. -/
theorem fmt_line_length_passed_unchanged (env : Env) (flags : FmtFlags) (args : List String) :
    (∀ files opts, Call.FormatFiles files opts ∈ (fmtRunE env flags args).2.calls →
      opts.ActionLineLimit = flags.fmtLineLength ∧
      (0 ≤ flags.fmtLineLength → 0 ≤ opts.ActionLineLimit) ∧
      (flags.fmtLineLength < 0 → opts.ActionLineLimit < 0)) ∧
    (∀ files, env.FindSDLFiles (argPath args) = .ok files → files ≠ [] →
      (flags.fmtActionStyle = "" ∨ flags.fmtActionStyle = "single" ∨
        flags.fmtActionStyle = "multi" ∨ flags.fmtActionStyle = "auto") →
      (fmtRunE env flags args).2.calls =
        [Call.FindSDLFiles (argPath args),
         Call.FormatFiles files (buildOptions (normalizeFlags flags))] ∧
      (buildOptions (normalizeFlags flags)).ActionLineLimit = flags.fmtLineLength ∧
      (∃ opts, Call.FormatFiles files opts ∈ (fmtRunE env flags args).2.calls ∧
        opts.ActionLineLimit = flags.fmtLineLength) ∧
      (∀ results, env.FormatFiles files (buildOptions (normalizeFlags flags)) = .ok results →
        (fmtRunE env flags args).2.err = none ∨
        ∃ e, (fmtRunE env flags args).2.err = some (.exitError 3 e))) := by
  obtain ⟨_, _, _, hl⟩ := normalizeFlags_fields flags
  have hlimit : (buildOptions (normalizeFlags flags)).ActionLineLimit = flags.fmtLineLength := by
    unfold buildOptions
    split <;> simp [hl]
  constructor
  · intro files opts hcall
    rcases fmtRunE_calls env flags args _ hcall with h | ⟨files2, hc, _, _, _⟩
    · cases h
    · have hopts : opts = buildOptions (normalizeFlags flags) := by
        injection hc
      have heq : opts.ActionLineLimit = flags.fmtLineLength := by
        rw [hopts]
        exact hlimit
      exact ⟨heq, fun h0 => heq ▸ h0, fun h0 => heq ▸ h0⟩
  · intro files hfind hne hstyle
    have hv := validActionStyle_normalize_of_valid flags hstyle
    have hcalls := fmtRunE_calls_of_valid env flags args files hfind hne hv
    refine ⟨hcalls, hlimit, ⟨buildOptions (normalizeFlags flags), ?_, hlimit⟩, ?_⟩
    · rw [hcalls]
      simp
    · intro results hfmt
      rw [fmtRunE_ok env flags args files results hfind hne hv hfmt]
      by_cases hc : flags.fmtCheck = true ∧ 0 < results.countP (fun res => res.Changed)
      · exact Or.inr ⟨_, if_pos hc⟩
      · exact Or.inl (if_neg hc)

/-- Witness of C6 amended: the default `--line-length` of 100 reaches the
formatter as `ActionLineLimit = 100`, and `--line-length=-5` is not rejected:
the formatter is called with `ActionLineLimit = -5`. -/
theorem fmt_line_length_passed_unchanged_witness :
    (Call.FormatFiles ["a.sdl"]
        { Write := true, Check := false, Diff := false, ActionStyle := "auto",
          ActionLineLimit := 100 } ∈
      (fmtRunE (sampleEnv [] []) defaultFmtFlags []).2.calls ∧
     (0 : Int) ≤ defaultFmtFlags.fmtLineLength ∧
     (0 : Int) ≤ ({ Write := true, Check := false, Diff := false, ActionStyle := "auto",
                    ActionLineLimit := 100 } : FormatOptions).ActionLineLimit) ∧
    ((sampleEnv [] []).FindSDLFiles (argPath []) = .ok ["a.sdl"] ∧
     (fmtRunE (sampleEnv [] []) { defaultFmtFlags with fmtLineLength := -5 } []).2.calls =
       [ Call.FindSDLFiles ".",
         Call.FormatFiles ["a.sdl"]
           { Write := true, Check := false, Diff := false, ActionStyle := "auto",
             ActionLineLimit := -5 } ]) :=
  ⟨⟨by decide, by decide,
    ((fmt_line_length_passed_unchanged (sampleEnv [] []) defaultFmtFlags []).1 ["a.sdl"]
      { Write := true, Check := false, Diff := false, ActionStyle := "auto",
        ActionLineLimit := 100 } (by decide)).2.1 (by decide)⟩,
   ⟨rfl,
    ((fmt_line_length_passed_unchanged (sampleEnv [] [])
      { defaultFmtFlags with fmtLineLength := -5 } []).2 ["a.sdl"] rfl (by decide)
      (by decide)).1⟩⟩

/-- C10: when the formatter returned `results`, the output of `fmt` is the
concatenation, in list order, of what each result contributes, unchanged
results contributing nothing: with check set and diff unset, the `Path` line
of each changed result; with diff set, the `Diff` of a changed result whose
`Diff` is non-empty, and the `Path` line of a changed result with an empty
`Diff` only when check is also set; with neither set, nothing. -/
theorem fmt_output_per_changed_result (env : Env) (flags : FmtFlags) (args files : List String)
    (results : List FormatResult)
    (hfind : env.FindSDLFiles (argPath args) = .ok files) (hne : files ≠ [])
    (hstyle : flags.fmtActionStyle = "" ∨ flags.fmtActionStyle = "single" ∨
      flags.fmtActionStyle = "multi" ∨ flags.fmtActionStyle = "auto")
    (hfmt : env.FormatFiles files (buildOptions (normalizeFlags flags)) = .ok results) :
    (fmtRunE env flags args).2.stdout =
      results.flatMap (specContribution flags.fmtCheck flags.fmtDiff) ∧
    (flags.fmtCheck = true → flags.fmtDiff = false →
      (fmtRunE env flags args).2.stdout =
        (results.filter (fun res => res.Changed)).map (fun res => res.Path ++ "\n")) ∧
    (flags.fmtDiff = true →
      (fmtRunE env flags args).2.stdout =
        (results.filter (fun res => res.Changed)).flatMap (fun res =>
          if res.Diff ≠ "" then [res.Diff]
          else if flags.fmtCheck = true then [res.Path ++ "\n"] else [])) ∧
    (flags.fmtCheck = false → flags.fmtDiff = false → (fmtRunE env flags args).2.stdout = []) := by
  have hv := validActionStyle_normalize_of_valid flags hstyle
  have hrun := fmtRunE_ok env flags args files results hfind hne hv hfmt
  have hout : (fmtRunE env flags args).2.stdout =
      results.flatMap (specContribution flags.fmtCheck flags.fmtDiff) := by
    rw [hrun]
  rw [hout]
  refine ⟨rfl, ?_, ?_, ?_⟩
  · intro hk hd
    rw [hk, hd]
    clear hrun hout hfmt
    induction results with
    | nil => rfl
    | cons res rest ih =>
      rw [List.flatMap_cons, ih]
      cases hc : res.Changed <;> simp [specContribution, hc, List.filter_cons]
  · intro hd
    rw [hd]
    clear hrun hout hfmt
    induction results with
    | nil => rfl
    | cons res rest ih =>
      rw [List.flatMap_cons, ih]
      cases hc : res.Changed <;> simp [specContribution, hc, List.filter_cons]
  · intro hk hd
    rw [hk, hd]
    clear hrun hout hfmt
    induction results with
    | nil => rfl
    | cons res rest ih =>
      rw [List.flatMap_cons, ih]
      cases hc : res.Changed <;> simp [specContribution, hc]

/-- Witness of C10: `--check --diff` on the sample results writes the diff of
`a.sdl`, nothing for the unchanged `b.sdl`, and the path line of `c.sdl`. -/
theorem fmt_output_per_changed_result_witness :
    (sampleEnv sampleResults []).FindSDLFiles (argPath []) = .ok ["a.sdl"] ∧
    (fmtRunE (sampleEnv sampleResults [])
        { defaultFmtFlags with fmtCheck := true, fmtDiff := true } []).2.stdout =
      (sampleResults.filter (fun res => res.Changed)).flatMap (fun res =>
        if res.Diff ≠ "" then [res.Diff]
        else if ({ defaultFmtFlags with fmtCheck := true, fmtDiff := true } : FmtFlags).fmtCheck
          = true then [res.Path ++ "\n"] else []) ∧
    (fmtRunE (sampleEnv sampleResults [])
        { defaultFmtFlags with fmtCheck := true, fmtDiff := true } []).2.stdout =
      ["--- a.sdl\n+++ a.sdl\n", "c.sdl\n"] :=
  ⟨rfl,
   (fmt_output_per_changed_result (sampleEnv sampleResults [])
      { defaultFmtFlags with fmtCheck := true, fmtDiff := true } [] ["a.sdl"] sampleResults
      rfl (by decide) (by decide) rfl).2.2.1 rfl,
   by decide⟩

/-! ## The `validate` command -/

/-- C2: when discovery found files and the validator returned `problems`,
`validate` fails with exit code 1 as soon as one problem has severity "error",
and succeeds with no error when every problem has severity "warning" (or the
list is empty); for a list whose severities are the two values of the
validator interface, "error" and "warning", it fails if and only if at least
one problem has severity "error".  (For arbitrary severity strings the loop
counts as an error every problem whose severity is not "warning".) -/
theorem validate_fails_iff_error (env : Env) (args files : List String)
    (problems : List Problem)
    (hfind : env.FindSDLFiles (argPath args) = .ok files) (hne : files ≠ [])
    (hval : env.ValidatePaths files = .ok problems) :
    ((∃ p ∈ problems, p.Severity = "error") →
      (∃ e, (validateRunE env args).err = some (.exitError 1 e)) ∧
      (Execute (validateRunE env args).err).exit = some 1) ∧
    ((∀ p ∈ problems, p.Severity = "warning") →
      (validateRunE env args).err = none ∧
      (Execute (validateRunE env args).err).exit = none ∧
      (Execute (validateRunE env args).err).exitCode = 0) ∧
    ((∀ p ∈ problems, p.Severity = "error" ∨ p.Severity = "warning") →
      (((validateRunE env args).err ≠ none ↔ ∃ p ∈ problems, p.Severity = "error") ∧
       ((Execute (validateRunE env args).err).exitCode = 1 ↔
          ∃ p ∈ problems, p.Severity = "error"))) ∧
    ((validateRunE env args).err ≠ none ↔ ∃ p ∈ problems, p.Severity ≠ "warning") := by
  obtain ⟨_, _, herr⟩ := validateRunE_ok env args files problems hfind hne hval
  have hcnt : (validateLoop env problems).errors =
      problems.countP (fun p => decide (p.Severity ≠ "warning")) := by
    rw [validateLoop_eq]
  have hpos : 0 < (validateLoop env problems).errors ↔
      ∃ p ∈ problems, p.Severity ≠ "warning" := by
    rw [hcnt, List.countP_pos_iff]
    simp
  have hfail : (∃ p ∈ problems, p.Severity ≠ "warning") →
      (∃ e, (validateRunE env args).err = some (.exitError 1 e)) ∧
      (Execute (validateRunE env args).err).exit = some 1 ∧
      (Execute (validateRunE env args).err).exitCode = 1 := by
    intro h
    rw [herr, if_pos (hpos.mpr h)]
    exact ⟨⟨_, rfl⟩, rfl, rfl⟩
  have hsucc : (¬ ∃ p ∈ problems, p.Severity ≠ "warning") →
      (validateRunE env args).err = none ∧
      (Execute (validateRunE env args).err).exit = none ∧
      (Execute (validateRunE env args).err).exitCode = 0 := by
    intro h
    rw [herr, if_neg (fun hh => h (hpos.mp hh))]
    exact ⟨rfl, rfl, rfl⟩
  refine ⟨?_, ?_, ?_, ?_⟩
  · rintro ⟨p, hp, hsev⟩
    have h := hfail ⟨p, hp, by rw [hsev]; decide⟩
    exact ⟨h.1, h.2.1⟩
  · intro hall
    apply hsucc
    rintro ⟨p, hp, hsev⟩
    exact hsev (hall p hp)
  · intro hdom
    have hequiv : (∃ p ∈ problems, p.Severity ≠ "warning") ↔
        ∃ p ∈ problems, p.Severity = "error" := by
      constructor
      · rintro ⟨p, hp, hsev⟩
        rcases hdom p hp with h | h
        · exact ⟨p, hp, h⟩
        · exact absurd h hsev
      · rintro ⟨p, hp, hsev⟩
        exact ⟨p, hp, by rw [hsev]; decide⟩
    by_cases hex : ∃ p ∈ problems, p.Severity ≠ "warning"
    · obtain ⟨⟨e, he⟩, _, hcode⟩ := hfail hex
      refine ⟨⟨fun _ => hequiv.mp hex, fun _ => ?_⟩, ⟨fun _ => hequiv.mp hex, fun _ => hcode⟩⟩
      rw [he]
      simp
    · obtain ⟨he, _, hcode⟩ := hsucc hex
      refine ⟨⟨fun h => absurd he h, fun h => absurd (hequiv.mpr h) hex⟩,
        ⟨fun h => ?_, fun h => absurd (hequiv.mpr h) hex⟩⟩
      rw [hcode] at h
      exact absurd h (by decide)
  · by_cases hex : ∃ p ∈ problems, p.Severity ≠ "warning"
    · obtain ⟨⟨e, he⟩, _, _⟩ := hfail hex
      refine ⟨fun _ => hex, fun _ => ?_⟩
      rw [he]
      simp
    · exact ⟨fun h => absurd (hsucc hex).1 h, fun h => absurd h hex⟩

/-- Witness of C2: one warning followed by one error fails with exit code 1. -/
theorem validate_fails_iff_error_witness :
    (sampleEnv [] [sampleProblem "warning", sampleProblem "error"]).ValidatePaths ["a.sdl"] =
      .ok [sampleProblem "warning", sampleProblem "error"] ∧
    (∀ p ∈ [sampleProblem "warning", sampleProblem "error"],
      p.Severity = "error" ∨ p.Severity = "warning") ∧
    (Execute (validateRunE (sampleEnv [] [sampleProblem "warning", sampleProblem "error"])
      []).err).exitCode = 1 :=
  ⟨rfl, by decide,
   ((validate_fails_iff_error (sampleEnv [] [sampleProblem "warning", sampleProblem "error"])
      [] ["a.sdl"] [sampleProblem "warning", sampleProblem "error"] rfl (by decide) rfl).2.2.1
      (by decide)).2.mpr ⟨sampleProblem "error", by decide, rfl⟩⟩

/-- C8: when the validator returned `problems`, `validate` writes to its error
stream exactly one line per problem, the text of `p.Error()`, in the order of
the list and whatever the severity; the two counters of the loop add up to the
number of problems, `warnings` being the number of problems of severity
"warning"; and these are the counts the failure message reports. -/
theorem validate_reports_every_problem (env : Env) (args files : List String)
    (problems : List Problem)
    (hfind : env.FindSDLFiles (argPath args) = .ok files) (hne : files ≠ [])
    (hval : env.ValidatePaths files = .ok problems) :
    (validateRunE env args).stderr = problems.map (fun p => env.ProblemError p ++ "\n") ∧
    (validateLoop env problems).errors + (validateLoop env problems).warnings
      = problems.length ∧
    (validateLoop env problems).warnings
      = (problems.filter (fun p => decide (p.Severity = "warning"))).length ∧
    (validateLoop env problems).errors
      = (problems.filter (fun p => decide (p.Severity ≠ "warning"))).length ∧
    ((validateRunE env args).err = none ∨
      (validateRunE env args).err = some (.exitError 1 (.errorString
        ("validation failed (" ++ fmtD (validateLoop env problems).errors ++ " errors, "
          ++ fmtD (validateLoop env problems).warnings ++ " warnings)")))) := by
  obtain ⟨_, hstderr, herr⟩ := validateRunE_ok env args files problems hfind hne hval
  have hloop := validateLoop_eq env problems
  refine ⟨?_, ?_, ?_, ?_, ?_⟩
  · rw [hstderr, hloop]
  · rw [hloop]
    show problems.countP (fun p => decide (p.Severity ≠ "warning"))
      + problems.countP (fun p => decide (p.Severity = "warning")) = problems.length
    rw [Nat.add_comm]
    have h := List.length_eq_countP_add_countP (fun p : Problem => decide (p.Severity = "warning"))
      problems
    rw [h]
    congr 2
    funext p
    simp
  · rw [hloop]
    exact List.countP_eq_length_filter _ _
  · rw [hloop]
    exact List.countP_eq_length_filter _ _
  · by_cases hp : 0 < (validateLoop env problems).errors
    · right
      rw [herr, if_pos hp]
      rfl
    · left
      rw [herr, if_neg hp]

/-- Witness of C8: a warning and an error are both written, in order, and
counted once each. -/
theorem validate_reports_every_problem_witness :
    (sampleEnv [] [sampleProblem "warning", sampleProblem "error"]).ValidatePaths ["a.sdl"] =
      .ok [sampleProblem "warning", sampleProblem "error"] ∧
    (validateRunE (sampleEnv [] [sampleProblem "warning", sampleProblem "error"]) []).stderr =
      ["a.sdl: warning: message\n", "a.sdl: error: message\n"] ∧
    (validateLoop (sampleEnv [] [sampleProblem "warning", sampleProblem "error"])
      [sampleProblem "warning", sampleProblem "error"]).warnings = 1 :=
  ⟨rfl,
   (validate_reports_every_problem (sampleEnv [] [sampleProblem "warning", sampleProblem "error"])
      [] ["a.sdl"] [sampleProblem "warning", sampleProblem "error"] rfl (by decide) rfl).1,
   by decide⟩

/-! ## The outermost boundary and the `compile` stub -/

/-- The error `fmt` returns is `nil`, an error without exit code, or an
`exitError` with code 3, provided the errors of `sdl` carry no exit code. -/
theorem fmtCmd_err_cases (env : Env) (henv : env.plainErrors) (flags : FmtFlags)
    (args : List String) :
    (fmtCmd env flags args).2.err = none ∨
    (∃ e, (fmtCmd env flags args).2.err = some e ∧ e.ExitCode = none) ∨
    (∃ e, (fmtCmd env flags args).2.err = some (.exitError 3 e)) := by
  obtain ⟨hF, hFmt, _⟩ := henv
  unfold fmtCmd MaximumNArgs
  by_cases hargs : args.length > 1
  · simp only [hargs, if_true]
    exact Or.inr (Or.inl ⟨_, rfl, rfl⟩)
  · simp only [hargs, if_false]
    unfold fmtRunE
    cases hfind : env.FindSDLFiles (argPath args) with
    | error e =>
      simp only [hfind]
      exact Or.inr (Or.inl ⟨e, rfl, hF _ _ hfind⟩)
    | ok files =>
      simp only [hfind]
      by_cases hlen : files.length = 0
      · simp only [hlen, if_true]
        exact Or.inr (Or.inl ⟨_, rfl, rfl⟩)
      · simp only [hlen, if_false]
        cases hst : validActionStyle (normalizeFlags flags).fmtActionStyle with
        | false =>
          simp only [if_true]
          exact Or.inr (Or.inl ⟨_, rfl, rfl⟩)
        | true =>
          simp only [Bool.true_eq_false, if_false]
          cases hf : env.FormatFiles files (buildOptions (normalizeFlags flags)) with
          | error e =>
            simp only [hf]
            exact Or.inr (Or.inl ⟨e, rfl, hFmt _ _ _ hf⟩)
          | ok results =>
            simp only [hf]
            split
            · exact Or.inr (Or.inr ⟨_, rfl⟩)
            · exact Or.inl rfl

/-- The error `validate` returns is `nil`, an error without exit code, or an
`exitError` with code 1, provided the errors of `sdl` carry no exit code. -/
theorem validateCmd_err_cases (env : Env) (henv : env.plainErrors) (args : List String) :
    (validateCmd env args).err = none ∨
    (∃ e, (validateCmd env args).err = some e ∧ e.ExitCode = none) ∨
    (∃ e, (validateCmd env args).err = some (.exitError 1 e)) := by
  obtain ⟨hF, _, hV⟩ := henv
  unfold validateCmd MaximumNArgs
  by_cases hargs : args.length > 1
  · simp only [hargs, if_true]
    exact Or.inr (Or.inl ⟨_, rfl, rfl⟩)
  · simp only [hargs, if_false]
    unfold validateRunE
    cases hfind : env.FindSDLFiles (argPath args) with
    | error e =>
      simp only [hfind]
      exact Or.inr (Or.inl ⟨e, rfl, hF _ _ hfind⟩)
    | ok files =>
      simp only [hfind]
      by_cases hlen : files.length = 0
      · simp only [hlen, if_true]
        exact Or.inr (Or.inl ⟨_, rfl, rfl⟩)
      · simp only [hlen, if_false]
        cases hv : env.ValidatePaths files with
        | error e =>
          simp only [hv]
          exact Or.inr (Or.inl ⟨e, rfl, hV _ _ hv⟩)
        | ok problems =>
          simp only [hv]
          split
          · exact Or.inr (Or.inr ⟨_, rfl⟩)
          · exact Or.inl rfl

/-- C7: `Execute` maps the result of the command to the exit code: no error
gives no `os.Exit` call, hence exit code 0; an error that carries an exit code,
such as `exitError code err`, gives exactly that code, and the `Error()` text
of `exitError code err` is `err.Error()`; every other error gives exit code 1.
When the errors of package `sdl` carry no exit code, the only codes `fmt` can
produce are 0, 1 and 3, and the only codes `validate` can produce are 0 and 1. -/
theorem Execute_exit_codes :
    (Execute none = { stderr := [], exit := none } ∧ (Execute none).exitCode = 0) ∧
    (∀ code err, (Execute (some (GoError.exitError code err))).exit = some code ∧
      (Execute (some (GoError.exitError code err))).exitCode = code ∧
      (GoError.exitError code err).Error = err.Error ∧
      (Execute (some (GoError.exitError code err))).stderr = [err.Error ++ "\n"]) ∧
    (∀ e code, e.ExitCode = some code → (Execute (some e)).exit = some code) ∧
    (∀ e, e.ExitCode = none →
      (Execute (some e)).exit = some 1 ∧ (Execute (some e)).exitCode = 1) ∧
    (∀ env : Env, env.plainErrors → ∀ flags args,
      (Execute (fmtCmd env flags args).2.err).exitCode = 0 ∨
      (Execute (fmtCmd env flags args).2.err).exitCode = 1 ∨
      (Execute (fmtCmd env flags args).2.err).exitCode = 3) ∧
    (∀ env : Env, env.plainErrors → ∀ args,
      (Execute (validateCmd env args).err).exitCode = 0 ∨
      (Execute (validateCmd env args).err).exitCode = 1) := by
  have hnone : ∀ e : GoError, e.ExitCode = none →
      (Execute (some e)).exit = some 1 ∧ (Execute (some e)).exitCode = 1 := by
    intro e he
    unfold Outcome.exitCode Execute
    simp [he]
  refine ⟨⟨rfl, rfl⟩, ?_, ?_, hnone, ?_, ?_⟩
  · intro code err
    exact ⟨rfl, rfl, rfl, rfl⟩
  · intro e code he
    unfold Execute
    simp only [he]
  · intro env henv flags args
    rcases fmtCmd_err_cases env henv flags args with h | ⟨e, h, he⟩ | ⟨e, h⟩
    · rw [h]
      exact Or.inl rfl
    · rw [h]
      exact Or.inr (Or.inl (hnone e he).2)
    · rw [h]
      exact Or.inr (Or.inr rfl)
  · intro env henv args
    rcases validateCmd_err_cases env henv args with h | ⟨e, h, he⟩ | ⟨e, h⟩
    · rw [h]
      exact Or.inl rfl
    · rw [h]
      exact Or.inr (hnone e he).2
    · rw [h]
      exact Or.inr rfl

/-- Witness of C7: a discovery failure ends `fmt` with exit code 1, and a
foreign error carrying code 7 would end the process with 7. -/
theorem Execute_exit_codes_witness :
    failingEnv.plainErrors ∧
    (Execute (fmtCmd failingEnv defaultFmtFlags []).2.err).exitCode = 1 ∧
    ((Execute (fmtCmd failingEnv defaultFmtFlags []).2.err).exitCode = 0 ∨
      (Execute (fmtCmd failingEnv defaultFmtFlags []).2.err).exitCode = 1 ∨
      (Execute (fmtCmd failingEnv defaultFmtFlags []).2.err).exitCode = 3) ∧
    (Execute (some (GoError.foreign "exit status 7" 7))).exit = some 7 :=
  have henv : failingEnv.plainErrors :=
    ⟨fun _ e h => by
        have he : e = GoError.errorString "permission denied" := by
          simp only [failingEnv] at h
          injection h with h
          exact h.symm
        rw [he]
        rfl,
     fun _ _ e h => by simp [failingEnv] at h,
     fun _ e h => by simp [failingEnv] at h⟩
  ⟨henv, by decide,
   Execute_exit_codes.2.2.2.2.1 failingEnv henv defaultFmtFlags [],
   Execute_exit_codes.2.2.1 (GoError.foreign "exit status 7" 7) 7 rfl⟩

/-- C9 as stated fails: `compile` without arguments writes a line to its
output, so it does not do nothing observable. -/
theorem compile_writes_a_line :
    (compileCmd []).stdout = ["compile is not implemented yet\n"] ∧
    ¬ ((compileCmd []).err = none ∧ (compileCmd []).calls = [] ∧
        (compileCmd []).stdout = [] ∧ (compileCmd []).stderr = []) := by
  decide

/-- C9 amended: for every argument list of at most one path, `compile` returns
no error, makes no call into `sdl`, writes nothing to its error stream and
writes exactly the line "compile is not implemented yet" to its output; the
whole run is the same for every such argument list. -/
theorem compile_is_a_stub (args : List String) (hargs : args.length ≤ 1) :
    compileCmd args =
      { calls := [], stdout := ["compile is not implemented yet\n"], stderr := [], err := none } ∧
    (∀ args2 : List String, args2.length ≤ 1 → compileCmd args2 = compileCmd args) ∧
    (Execute (compileCmd args).err).exitCode = 0 := by
  have h : ∀ a : List String, a.length ≤ 1 → compileCmd a =
      { calls := [], stdout := ["compile is not implemented yet\n"], stderr := [],
        err := none } := by
    intro a ha
    unfold compileCmd MaximumNArgs
    have : ¬ a.length > 1 := by omega
    simp only [this, if_false]
    rfl
  refine ⟨h args hargs, fun a ha => ?_, ?_⟩
  · rw [h a ha, h args hargs]
  · rw [h args hargs]
    rfl

/-- Witness of C9 amended: `compile services/` behaves like `compile`. -/
theorem compile_is_a_stub_witness :
    ["services/"].length ≤ 1 ∧
    compileCmd ["services/"] =
      { calls := [], stdout := ["compile is not implemented yet\n"], stderr := [], err := none } ∧
    compileCmd [] = compileCmd ["services/"] :=
  ⟨by decide, (compile_is_a_stub ["services/"] (by decide)).1,
   (compile_is_a_stub ["services/"] (by decide)).2.1 [] (by decide)⟩

end SdlCli
